import Mathlib

/-!
# Verification of the grants.gov scraper's HTML extraction core (`src/parser.py`)

This development shallowly embeds the two extraction functions of
`src/parser.py` (`parse_search_results` and `parse_grant_details`) together
with their helpers (`safe_extract_text`, `clean_amount`, `validate_grant_data`,
`extract_table_data`) and proves the specified properties about them.

Modelling conventions:
* An HTML document is modelled as a forest of DOM nodes, the result of
  BeautifulSoup's lenient parse.  The forest is encoded first-child /
  next-sibling (`Dom`) so that all traversals are structural recursions; a
  single node (`Node`) is an element with tag, attributes and child forest, or
  a text node.  The Python functions receive the raw HTML string; since
  BeautifulSoup's string-to-DOM parse is external to the repository, each
  embedded top-level function takes both the raw string (used only for the
  `if not html_content` emptiness guard, exactly as in the source) and the DOM
  forest that BeautifulSoup would produce for it.
* BeautifulSoup `Tag` objects are always truthy (`Tag.__bool__` returns `True`:
  "A tag is non-None even if it has no contents"), so the source's
  `if not element:` checks on `find` results test only for `None`; they are
  modelled as `Option` matches.
* `find` / `find_all` search the descendants of a node in document order;
  `find_next` searches everything after a node in the document-order
  (pre-order) traversal.  Both are modelled via an explicit pre-order
  flattening.
* Python's falsiness of `""` and `None`, `str.strip`, `str.rstrip(':')`,
  `dict` assignment/update and `re.sub(r'[^\d.]', '', s)` are modelled with
  `Option`, a whitespace stripper, a trailing-colon stripper, association-list
  insert/update, and a character filter (ASCII digits model `\d` over the
  ASCII inputs this scraper handles).
* Exceptions are modelled with `Except`: the per-row `try/except` of
  `parse_search_results` is the loop `rowsLoop`, which swallows a row's error
  and continues, and the top-level `try/except` blocks are `catchToEmptyList` /
  `catchToEmptyDict`, which degrade any error to the empty sentinel.
-/

/-- Python `s.strip()`: remove leading and trailing whitespace.  (Defined by
structural recursion over the character list so that concrete instances
compute in the kernel; extensionally it is `String.trim`.) -/
def pyStrip (s : String) : String :=
  String.mk (((s.data.dropWhile Char.isWhitespace).reverse.dropWhile Char.isWhitespace).reverse)

/-- Python `sep.join(l)`. -/
def joinSep (sep : String) : List String → String
  | [] => ""
  | [x] => x
  | x :: y :: xs => x ++ sep ++ joinSep sep (y :: xs)

/-- Split a string at whitespace (possibly-empty fragments kept, as they are
irrelevant for membership tests). -/
def splitWsAux : List Char → List Char → List String
  | [], cur => [String.mk cur.reverse]
  | c :: rest, cur =>
    if c.isWhitespace then String.mk cur.reverse :: splitWsAux rest []
    else splitWsAux rest (c :: cur)

/-- Split a string at whitespace. -/
def splitWs (s : String) : List String :=
  splitWsAux s.data []

/-- A DOM forest in first-child / next-sibling form: empty, a text node
followed by its siblings, or an element (tag name, attributes, children)
followed by its siblings. -/
inductive Dom where
  | nil : Dom
  | text (s : String) (rest : Dom) : Dom
  | elem (tag : String) (attrs : List (String × String)) (children : Dom) (rest : Dom) : Dom
deriving Repr, DecidableEq

/-- A single DOM node as returned by `find`: a BeautifulSoup `Tag` (element
with its child forest) or `NavigableString`. -/
inductive Node where
  | elem (tag : String) (attrs : List (String × String)) (children : Dom)
  | text (s : String)
deriving Repr, DecidableEq

/-- Prepend a node to a forest. -/
def Dom.consNode (n : Node) (d : Dom) : Dom :=
  match n with
  | .text s => .text s d
  | .elem t a cs => .elem t a cs d

/-- Build a forest from a list of nodes. -/
def Dom.ofList : List Node → Dom
  | [] => .nil
  | n :: rest => Dom.consNode n (Dom.ofList rest)

/-- Pre-order (document-order) traversal of a forest: every node, parents
before their descendants, in source order (BeautifulSoup `descendants`). -/
def Dom.preorder : Dom → List Node
  | .nil => []
  | .text s r => .text s :: r.preorder
  | .elem t a cs r => .elem t a cs :: (cs.preorder ++ r.preorder)

/-- All text-node strings of a forest in document order (`tag.strings`). -/
def Dom.texts : Dom → List String
  | .nil => []
  | .text s r => s :: r.texts
  | .elem _ _ cs r => cs.texts ++ r.texts

/-- `tag.string` for a tag whose contents are the given forest: the single
text child, reached through singleton element children, else `None`. -/
def Dom.stringOf : Dom → Option String
  | .text s .nil => some s
  | .elem _ _ cs .nil => Dom.stringOf cs
  | _ => none

namespace Node

/-- The child forest of a node (`tag.contents`); a text node has none. -/
def childrenD : Node → Dom
  | .elem _ _ cs => cs
  | .text _ => .nil

/-- The tag name of an element node. -/
def tag? : Node → Option String
  | .elem t _ _ => some t
  | .text _ => none

/-- Attribute lookup (`tag.get(key)`), first binding wins. -/
def getAttr (n : Node) (k : String) : Option String :=
  match n with
  | .elem _ attrs _ => (attrs.find? (fun p => p.1 == k)).map (·.2)
  | .text _ => none

/-- Whether `n` is an element with the given tag name. -/
def isTagNamed (t : String) (n : Node) : Bool :=
  n.tag? == some t

/-- The whitespace-split class list of a node (BeautifulSoup treats `class`
as a multi-valued attribute). -/
def classes (n : Node) : List String :=
  splitWs ((n.getAttr "class").getD "")

/-- `class_=c` filter: the class list contains `c`. -/
def hasClass (n : Node) (c : String) : Bool :=
  n.classes.contains c

/-- `tag.find_all(pred)`: all descendants (excluding the node itself) in
document order satisfying the predicate. -/
def findAll (n : Node) (p : Node → Bool) : List Node :=
  n.childrenD.preorder.filter p

/-- `tag.find(pred)`: the first descendant satisfying the predicate. -/
def findEl (n : Node) (p : Node → Bool) : Option Node :=
  n.childrenD.preorder.find? p

/-- `tag.text` / `tag.get_text()`: concatenation of all descendant strings. -/
def getText : Node → String
  | .text s => s
  | .elem _ _ cs => String.join cs.texts

/-- `tag.stripped_strings`: each descendant string stripped, empties dropped. -/
def strippedStrings (n : Node) : List String :=
  ((n.childrenD.texts).map pyStrip).filter (· ≠ "")

/-- `tag.string` of a node. -/
def stringVal : Node → Option String
  | .text s => some s
  | .elem _ _ cs => cs.stringOf

end Node

/-- `soup.find(pred)` at document level (the node itself included for
top-level nodes, as with BeautifulSoup's document object). -/
def findF (d : Dom) (p : Node → Bool) : Option Node :=
  d.preorder.find? p

/-- `soup.find(pTarget)` followed by `found.find_next(pNext)`: locate the first
node matching `pTarget` in document order, then the first node strictly after
it (in document order, descendants of the target included) matching `pNext`. -/
def findNextMatching (d : Dom) (pTarget pNext : Node → Bool) : Option Node :=
  match d.preorder.findIdx? pTarget with
  | none => none
  | some i => (d.preorder.drop (i + 1)).find? pNext

/-! ## `src/parser.py` helpers -/

/-- `safe_extract_text(element, class_name)` (`parser.py:11-31`): `None` for a
missing element, else the stripped text, with an empty result normalised to
`None`.  (The `AttributeError` branch is unreachable for DOM nodes.) -/
def safe_extract_text : Option Node → Option String
  | none => none
  | some e => let t := pyStrip e.getText; if t = "" then none else some t

/-- `clean_amount(amount_str)` (`parser.py:33-45`): `None` for a falsy input,
else the input with every character that is not a digit or `.` removed
(`re.sub(r'[^\d.]', '', s)`), an empty result normalised to `None`. -/
def clean_amount : Option String → Option String
  | none => none
  | some s =>
    if s = "" then none
    else
      let cleaned := String.mk (s.data.filter (fun ch => ch.isDigit || ch == '.'))
      if cleaned = "" then none else some cleaned

/-- The `award-info` sub-record of a search row (`award_ceiling` /
`award_floor` keys of the grant dict, present iff the `award-info` div was
found). -/
structure AwardInfo where
  award_ceiling : Option String
  award_floor : Option String
deriving Repr, DecidableEq

/-- The optional keys of the grant dict added when a `grant-details` div is
found in the second cell (`parser.py:130-152`); `award` is present iff the
nested `award-info` div was also found. -/
structure ExtraDetails where
  award : Option AwardInfo
  eligibility : Option String
  funding_instrument : Option String
  category : Option String
deriving Repr, DecidableEq

/-- The grant dictionary assembled from one search-results row
(`parser.py:119-152`).  The seven base keys are always present; `extra` models
the conditionally-present keys. -/
structure Grant where
  opportunity_number : String
  detail_page_url : String
  title : Option String
  agency : Option String
  status : Option String
  posted_date : Option String
  close_date : Option String
  extra : Option ExtraDetails
deriving Repr, DecidableEq

/-- `validate_grant_data(grant_data)` (`parser.py:47-64`): true iff the three
required fields `title`, `opportunity_number`, `detail_page_url` are present
and truthy (not `None`, not `""`). -/
def validate_grant_data (g : Grant) : Bool :=
  (match g.title with | none => false | some t => t != "")
    && (g.opportunity_number != "") && (g.detail_page_url != "")

/-! ## `parse_search_results` (`parser.py:66-173`) -/

/-- `row.find_all("td")` (`parser.py:96`). -/
def rowCols (row : Node) : List Node :=
  row.findAll (Node.isTagNamed "td")

/-- `cols[0].find("a", class_="usa-link")` (`parser.py:102`). -/
def findOppLink (c0 : Node) : Option Node :=
  c0.findEl (fun n => n.isTagNamed "a" && n.hasClass "usa-link")

/-- `link.get("href", "")` (`parser.py:108`). -/
def hrefOf (link : Node) : String :=
  (link.getAttr "href").getD ""

/-- `cols[1].find('div', class_='grant-details')` (`parser.py:131`). -/
def findDetailsDiv (c1 : Node) : Option Node :=
  c1.findEl (fun n => n.isTagNamed "div" && n.hasClass "grant-details")

/-- `details_div.find('div', class_='award-info')` (`parser.py:134`). -/
def findAwardInfo (d : Node) : Option Node :=
  d.findEl (fun n => n.isTagNamed "div" && n.hasClass "award-info")

/-- The optional-fields block of `parse_search_results` (`parser.py:130-152`):
keys added only when the respective wrapper divs are found. -/
def extraOf (c1 : Node) : Option ExtraDetails :=
  match findDetailsDiv c1 with
  | none => none
  | some d =>
    some {
      award := (findAwardInfo d).map (fun a =>
        { award_ceiling := clean_amount (safe_extract_text
            (a.findEl (fun n => n.isTagNamed "span" && n.hasClass "ceiling")))
          award_floor := clean_amount (safe_extract_text
            (a.findEl (fun n => n.isTagNamed "span" && n.hasClass "floor"))) })
      eligibility := safe_extract_text
        (d.findEl (fun n => n.isTagNamed "div" && n.hasClass "eligibility"))
      funding_instrument := safe_extract_text
        (d.findEl (fun n => n.isTagNamed "div" && n.hasClass "funding-instrument"))
      category := safe_extract_text
        (d.findEl (fun n => n.isTagNamed "div" && n.hasClass "category")) }

/-- The body of the per-row loop of `parse_search_results`
(`parser.py:93-162`): `none` models every `continue` (fewer than 6 cells, no
opportunity link, empty trimmed href, failed validation); `some g` models
`grants.append(grant)`. -/
def processRow (row : Node) : Option Grant :=
  match rowCols row with
  | c0 :: c1 :: c2 :: c3 :: c4 :: c5 :: _ =>
    match findOppLink c0 with
    | none => none
    | some link =>
      let onum := pyStrip link.getText
      let durl := pyStrip (hrefOf link)
      if durl = "" then none
      else
        let g : Grant :=
          { opportunity_number := onum
            detail_page_url := "https://grants.gov" ++ durl
            title := safe_extract_text (some c1)
            agency := safe_extract_text (some c2)
            status := safe_extract_text (some c3)
            posted_date := safe_extract_text (some c4)
            close_date := safe_extract_text (some c5)
            extra := extraOf c1 }
        if validate_grant_data g then some g else none
  | _ => none

/-- The per-row `try/except` loop (`parser.py:93-166`): a row whose processing
raises is skipped (`except Exception ... continue`), a row yielding `none`
(`continue`) is skipped, a row yielding a grant appends it. -/
def rowsLoop (f : Node → Except String (Option Grant)) : List Node → List Grant
  | [] => []
  | r :: rs =>
    match f r with
    | .error _ => rowsLoop f rs
    | .ok none => rowsLoop f rs
    | .ok (some g) => g :: rowsLoop f rs

/-- The actual row body as an exception-aware computation; in the model no
DOM primitive raises, so it always returns `.ok`. -/
def processRowE (row : Node) : Except String (Option Grant) :=
  .ok (processRow row)

/-- `soup.find('table', class_='usa-table')` (`parser.py:84`). -/
def findTable (soup : Dom) : Option Node :=
  findF soup (fun n => n.isTagNamed "table" && n.hasClass "usa-table")

/-- `table.find_all('tr')[1:]` (`parser.py:90`): all descendant rows minus the
header row. -/
def rowsOf (table : Node) : List Node :=
  (table.findAll (Node.isTagNamed "tr")).drop 1

/-- The protected body of `parse_search_results` (`parser.py:81-170`). -/
def searchBody (soup : Dom) : Except String (List Grant) :=
  match findTable soup with
  | none => .ok []
  | some t => .ok (rowsLoop processRowE (rowsOf t))

/-- The top-level `try/except` of `parse_search_results` (`parser.py:171-173`):
any document-level error degrades to the empty list. -/
def catchToEmptyList : Except String (List Grant) → List Grant
  | .ok l => l
  | .error _ => []

/-- `parse_search_results(html_content)` (`parser.py:66-173`); `soup` is the
DOM BeautifulSoup produces for `html`. -/
def parse_search_results (html : String) (soup : Dom) : List Grant :=
  if html = "" then [] else catchToEmptyList (searchBody soup)

/-! ## `parse_grant_details` (`parser.py:175-276`) -/

/-- A value of the details mapping: plain (possibly multi-line) text, or the
structured link value `{"text": ..., "urls": [...]}`. -/
inductive DVal where
  | str (s : String)
  | linked (text : Option String) (urls : List String)
deriving Repr, DecidableEq

/-- Python's `s.rstrip(':')`: remove all trailing colons. -/
def pyRstripColon (s : String) : String :=
  String.mk ((s.data.reverse.dropWhile (fun c => c == ':')).reverse)

/-- The details mapping: an insertion-ordered dictionary. -/
abbrev DDict := List (String × DVal)

/-- Python `d[k] = v`: replace the existing binding in place, else append. -/
def dictInsert : DDict → String → DVal → DDict
  | [], k, v => [(k, v)]
  | p :: rest, k, v => if p.1 = k then (k, v) :: rest else p :: dictInsert rest k v

/-- Python `d.update(s)`: insert every binding of `s` into `d` in order. -/
def dictUpdate (d : DDict) (s : DDict) : DDict :=
  s.foldl (fun acc p => dictInsert acc p.1 p.2) d

/-- `d.get(k)` on the details mapping. -/
def lookupD (d : DDict) (k : String) : Option DVal :=
  (d.find? (fun p => p.1 == k)).map (·.2)

/-- `[link.get("href", "").strip() for link in links if link.get("href")]`
(`parser.py:249`): keep links whose raw href is present and non-empty, take
the stripped href. -/
def linkUrls (links : List Node) : List String :=
  links.filterMap (fun l =>
    match l.getAttr "href" with
    | none => none
    | some h => if h = "" then none else some (pyStrip h))

/-- One row of a section table (`parser.py:235-259`): `none` models both the
`len(cols) != 2` skip and a falsy value (never the links branch, whose dict
value is always truthy); `some (key, value)` models `section_data[key] =
value`. -/
def rowEntry (row : Node) : Option (String × DVal) :=
  match rowCols row with
  | [kc, vc] =>
    let key := pyRstripColon (pyStrip kc.getText)
    match vc.findAll (Node.isTagNamed "a") with
    | [] =>
      let s := joinSep "\n" vc.strippedStrings
      if s = "" then none else some (key, .str s)
    | l :: ls =>
      let t := pyStrip vc.getText
      some (key, .linked (if t = "" then none else some t) (linkUrls (l :: ls)))
  | _ => none

/-- `soup.find('h2', string=h)`: an `h2` whose `.string` is exactly `h`. -/
def isH2WithString (h : String) (n : Node) : Bool :=
  n.isTagNamed "h2" && (n.stringVal == some h)

/-- `extract_table_data(soup, section_name, header_text)`
(`parser.py:221-265`): locate the section heading, take the next table in
document order, and fold its rows into a section dictionary. -/
def extract_table_data (soup : Dom) (header_text : String) : DDict :=
  match findNextMatching soup (isH2WithString header_text) (Node.isTagNamed "table") with
  | none => []
  | some table =>
    (table.findAll (Node.isTagNamed "tr")).foldl
      (fun acc row =>
        match rowEntry row with
        | none => acc
        | some (k, v) => dictInsert acc k v) []

/-- `soup.find('h2', string='Opportunity Synopsis')` followed by
`.find_next('div')` (`parser.py:196-198`). -/
def synNextDiv (soup : Dom) : Option Node :=
  findNextMatching soup (isH2WithString "Opportunity Synopsis") (Node.isTagNamed "div")

/-- The synopsis step (`parser.py:194-203`): if the heading and a following
div exist, the details mapping starts with `synopsis` bound to the div's
stripped text, else it starts empty. -/
def synopsisPart (soup : Dom) : DDict :=
  match synNextDiv soup with
  | none => []
  | some d => [("synopsis", .str (pyStrip d.getText))]

/-- The protected body of `parse_grant_details` (`parser.py:189-272`): the
synopsis step, then the three section extractions merged in fixed order
General Information → Eligibility → Additional Information. -/
def detailsBody (soup : Dom) : Except String DDict :=
  .ok (dictUpdate (dictUpdate (dictUpdate (synopsisPart soup)
        (extract_table_data soup "General Information"))
        (extract_table_data soup "Eligibility"))
        (extract_table_data soup "Additional Information"))

/-- The top-level `try/except` of `parse_grant_details` (`parser.py:274-276`):
any document-level error degrades to the empty mapping. -/
def catchToEmptyDict : Except String DDict → DDict
  | .ok d => d
  | .error _ => []

/-- `parse_grant_details(html_content)` (`parser.py:175-276`); `soup` is the
DOM BeautifulSoup produces for `html`. -/
def parse_grant_details (html : String) (soup : Dom) : DDict :=
  if html = "" then [] else catchToEmptyDict (detailsBody soup)

/-! ## Spec-side reading of the synopsis step

The spec describes the synopsis as the text of "the next sibling block-level
element" of the heading; the code instead takes the next `div` in document
order (`find_next('div')`).  The following definitions formalise the spec's
words, for comparison with the code's behaviour. -/

/-- The HTML block-level elements (per the HTML living standard's list of
block-level display tags). -/
def blockTags : List String :=
  ["address", "article", "aside", "blockquote", "details", "dialog", "dd",
   "div", "dl", "dt", "fieldset", "figcaption", "figure", "footer", "form",
   "h1", "h2", "h3", "h4", "h5", "h6", "header", "hgroup", "hr", "li", "main",
   "nav", "ol", "p", "pre", "section", "table", "ul"]

/-- Modelled from the spec: the trimmed text of the first block-level element
in a sibling forest. -/
def firstBlockText : Dom → Option String
  | .nil => none
  | .text _ r => firstBlockText r
  | .elem t a cs r =>
    if blockTags.contains t then some (pyStrip (Node.getText (.elem t a cs)))
    else firstBlockText r

/-- Modelled from the spec: "the next sibling block-level element's trimmed
text" of the heading with exact text "Opportunity Synopsis" — scan the forest
for that heading and return the trimmed text of the first block-level element
among the siblings following it. -/
def specSynopsisSibling : Dom → Option String
  | .nil => none
  | .text _ r => specSynopsisSibling r
  | .elem t a cs r =>
    if isH2WithString "Opportunity Synopsis" (.elem t a cs) then firstBlockText r
    else
      match specSynopsisSibling cs with
      | some x => some x
      | none => specSynopsisSibling r

/-! ## Concrete example documents -/

/-- A `td` cell with the given contents. -/
def tdN (cs : List Node) : Node := .elem "td" [] (Dom.ofList cs)

/-- A search-results opportunity anchor. -/
def anchorN (href txt : String) : Node :=
  .elem "a" [("class", "usa-link"), ("href", href)] (.text txt .nil)

/-- A well-formed search-results row with six cells. -/
def mkRow (num href t ag st pd cd : String) : Node :=
  .elem "tr" [] (Dom.ofList
    [tdN [anchorN href num], tdN [.text t], tdN [.text ag],
     tdN [.text st], tdN [.text pd], tdN [.text cd]])

/-- A malformed search-results row with only four cells. -/
def badRow4 : Node :=
  .elem "tr" [] (Dom.ofList [tdN [.text "a"], tdN [.text "b"], tdN [.text "c"], tdN [.text "d"]])

/-- The header row of the results table. -/
def headerTr : Node :=
  .elem "tr" [] (Dom.ofList [.elem "th" [] (.text "Opportunity Number" .nil)])

/-- A results table with rows [valid, malformed(4 cells), valid]. -/
def exTable : Node :=
  .elem "table" [("class", "usa-table")] (Dom.ofList
    [headerTr,
     mkRow "ABC-1" "/d/1" "T1" "A1" "Posted" "P1" "D1",
     badRow4,
     mkRow "ABC-3" "/d/3" "T3" "A3" "Posted" "P3" "D3"])

/-- A search-results document whose table has rows [valid, malformed, valid]. -/
def exDoc : Dom :=
  Dom.ofList [.elem "body" [] (Dom.ofList [exTable])]

/-- The grant record of the first valid example row. -/
def exGrant1 : Grant :=
  { opportunity_number := "ABC-1", detail_page_url := "https://grants.gov/d/1"
    title := some "T1", agency := some "A1", status := some "Posted"
    posted_date := some "P1", close_date := some "D1", extra := none }

/-- The grant record of the second valid example row. -/
def exGrant3 : Grant :=
  { opportunity_number := "ABC-3", detail_page_url := "https://grants.gov/d/3"
    title := some "T3", agency := some "A3", status := some "Posted"
    posted_date := some "P3", close_date := some "D3", extra := none }

/-- A bare anchor with a href and no text. -/
def anchorPlain (href : String) : Node := .elem "a" [("href", href)] .nil

/-- A section-table row whose value cell has visible text "See links" and two
hyperlinks with hrefs `/a` and `/b`. -/
def linkRow : Node :=
  .elem "tr" [] (Dom.ofList
    [tdN [.text "Contact:"], tdN [.text "See links", anchorPlain "/a", anchorPlain "/b"]])

/-- A detail page with an Additional Information section containing `linkRow`. -/
def c5Doc : Dom :=
  Dom.ofList [.elem "body" [] (Dom.ofList
    [.elem "h2" [] (.text "Additional Information" .nil),
     .elem "table" [] (Dom.ofList [linkRow])])]

/-- A plain key/value section-table row. -/
def kvRow (k v : String) : Node :=
  .elem "tr" [] (Dom.ofList [tdN [.text k], tdN [.text v]])

/-- A detail page whose Eligibility and Additional Information sections both
bind the key `X`. -/
def c9Doc : Dom :=
  Dom.ofList [.elem "body" [] (Dom.ofList
    [.elem "h2" [] (.text "Eligibility" .nil),
     .elem "table" [] (Dom.ofList [kvRow "X:" "from-elig", kvRow "Eligible Applicants:" "Nonprofits"]),
     .elem "h2" [] (.text "Additional Information" .nil),
     .elem "table" [] (Dom.ofList [kvRow "X:" "from-add"])])]

/-- A detail page where the synopsis heading's next sibling block element is a
`p` ("AAA") but the next `div` in document order ("BBB") comes later. -/
def c7Doc : Dom :=
  Dom.ofList [.elem "body" [] (Dom.ofList
    [.elem "h2" [] (.text "Opportunity Synopsis" .nil),
     .elem "p" [] (.text "AAA" .nil),
     .elem "div" [] (.text "BBB" .nil)])]

/-- A well-formed two-row search-results document with no malformed row. -/
def wTable : Node :=
  .elem "table" [("class", "usa-table")] (Dom.ofList
    [headerTr,
     mkRow "ABC-1" "/d/1" "T1" "A1" "Posted" "P1" "D1",
     mkRow "ABC-3" "/d/3" "T3" "A3" "Posted" "P3" "D3"])

/-- Document wrapping `wTable`. -/
def wDoc : Dom :=
  Dom.ofList [.elem "body" [] (Dom.ofList [wTable])]

/-- The structural conditions on a search-results row under which the row
loop appends a record: at least six cells, an opportunity anchor with
non-empty trimmed text and non-empty trimmed href, and a non-empty title
cell. -/
def goodRow (row : Node) : Bool :=
  match rowCols row with
  | c0 :: c1 :: _ :: _ :: _ :: _ :: _ =>
    match findOppLink c0 with
    | some link =>
      (pyStrip link.getText != "") && (pyStrip (hrefOf link) != "")
        && (pyStrip c1.getText != "")
    | none => false
  | _ => false

/-- The key cell of `linkRow`. -/
def kcEx : Node := tdN [.text "Contact:"]

/-- The value cell of `linkRow`. -/
def vcEx : Node := tdN [.text "See links", anchorPlain "/a", anchorPlain "/b"]

/-- A title cell carrying a `grant-details` div with an `award-info` div and
an eligibility div. -/
def detailsCell : Node :=
  tdN [.text "T9",
    .elem "div" [("class", "grant-details")] (Dom.ofList
      [.elem "div" [("class", "award-info")] (Dom.ofList
        [.elem "span" [("class", "ceiling")] (.text "$500,000" .nil),
         .elem "span" [("class", "floor")] (.text "$10,000" .nil)]),
       .elem "div" [("class", "eligibility")] (.text "Nonprofits" .nil)])]

/-- A valid search-results row whose title cell carries the optional
`grant-details` block. -/
def richRow : Node :=
  .elem "tr" [] (Dom.ofList
    [tdN [anchorN "/d/9" "ABC-9"], detailsCell, tdN [.text "A9"],
     tdN [.text "S9"], tdN [.text "P9"], tdN [.text "D9"]])

/-- The grant record produced from `richRow`. -/
def richGrant : Grant :=
  { opportunity_number := "ABC-9", detail_page_url := "https://grants.gov/d/9"
    title := some "T9$500,000$10,000Nonprofits", agency := some "A9"
    status := some "S9", posted_date := some "P9", close_date := some "D9"
    extra := some
      { award := some { award_ceiling := some "500000", award_floor := some "10000" }
        eligibility := some "Nonprofits", funding_instrument := none, category := none } }

/-- The key set of the Python grant dictionary represented by `g`, in
insertion order (`parser.py:119-152`): the seven base keys always, the award
keys when the `award-info` div was found, the three metadata keys when the
`grant-details` div was found. -/
def grantKeys (g : Grant) : List String :=
  ["opportunity_number", "detail_page_url", "title", "agency", "status",
   "posted_date", "close_date"]
  ++ (match g.extra with
      | none => []
      | some ed =>
        (match ed.award with
         | none => []
         | some _ => ["award_ceiling", "award_floor"])
        ++ ["eligibility", "funding_instrument", "category"])

/-! ## Supporting lemmas -/

/-- The per-row loop over the actual (non-raising) row body is a `filterMap`. -/
theorem rowsLoop_eq_filterMap (l : List Node) :
    rowsLoop processRowE l = l.filterMap processRow := by
  induction l with
  | nil => rfl
  | cons r rs ih =>
    cases h : processRow r <;>
      simp [rowsLoop, processRowE, List.filterMap_cons, h, ih]

/-- A `filterMap` over a list on which the function always succeeds keeps
every element. -/
theorem length_filterMap_all_some {α β : Type} (f : α → Option β) :
    ∀ l : List α, (∀ x ∈ l, (f x).isSome) → (l.filterMap f).length = l.length := by
  intro l
  induction l with
  | nil => simp
  | cons a l ih =>
    intro h
    rcases Option.isSome_iff_exists.mp (h a (by simp)) with ⟨b, hb⟩
    have := ih (fun x hx => h x (by simp [hx]))
    simp [List.filterMap_cons, hb, this]

/-- Prefixing the fixed site origin never yields the empty string. -/
theorem gov_append_ne_empty (s : String) : ("https://grants.gov" ++ s) ≠ "" := by
  intro h
  have h2 : ("https://grants.gov" ++ s).data = "".data := congrArg String.data h
  have h3 : "https://grants.gov".data ++ s.data = [] := h2
  have h4 : "https://grants.gov".data = [] := (List.append_eq_nil.mp h3).1
  exact absurd h4 (by decide)

/-- A row satisfying `goodRow` is never skipped. -/
theorem processRow_isSome_of_goodRow (row : Node) (h : goodRow row = true) :
    (processRow row).isSome := by
  unfold goodRow at h
  unfold processRow
  split at h
  case h_2 => exact absurd h (by simp)
  case h_1 c0 c1 c2 c3 c4 c5 rest heq =>
    split at h
    case h_2 => exact absurd h (by simp)
    case h_1 link hlink =>
      simp only [Bool.and_eq_true, bne_iff_ne, ne_eq] at h
      obtain ⟨⟨honum, hdurl⟩, htitle⟩ := h
      rw [hlink]
      have hval : validate_grant_data
          { opportunity_number := pyStrip link.getText
            detail_page_url := "https://grants.gov" ++ pyStrip (hrefOf link)
            title := safe_extract_text (some c1)
            agency := safe_extract_text (some c2)
            status := safe_extract_text (some c3)
            posted_date := safe_extract_text (some c4)
            close_date := safe_extract_text (some c5)
            extra := extraOf c1 } = true := by
        simp only [validate_grant_data, safe_extract_text, htitle, if_false,
          Bool.and_eq_true, bne_iff_ne, ne_eq]
        exact ⟨⟨by simp [htitle], honum⟩, gov_append_ne_empty _⟩
      simp [hdurl, hval]

/-- Inversion on the row body: an appended record can only come from a row
with at least six cells and a usa-link anchor with non-empty trimmed href,
and is exactly the dictionary assembled from fixed-position cells. -/
theorem processRow_inv {row : Node} {g : Grant} (h : processRow row = some g) :
    ∃ c0 c1 c2 c3 c4 c5 rest link,
      rowCols row = c0 :: c1 :: c2 :: c3 :: c4 :: c5 :: rest ∧
      findOppLink c0 = some link ∧
      pyStrip (hrefOf link) ≠ "" ∧
      validate_grant_data g = true ∧
      g = { opportunity_number := pyStrip link.getText
            detail_page_url := "https://grants.gov" ++ pyStrip (hrefOf link)
            title := safe_extract_text (some c1)
            agency := safe_extract_text (some c2)
            status := safe_extract_text (some c3)
            posted_date := safe_extract_text (some c4)
            close_date := safe_extract_text (some c5)
            extra := extraOf c1 } := by
  unfold processRow at h
  split at h
  case h_2 => exact absurd h (by simp)
  case h_1 c0 c1 c2 c3 c4 c5 rest heq =>
    split at h
    case h_1 => exact absurd h (by simp)
    case h_2 link hlink =>
      simp only at h
      split at h
      case isTrue => exact absurd h (by simp)
      case isFalse hdurl =>
        split at h
        case isFalse => exact absurd h (by simp)
        case isTrue hval =>
          refine ⟨c0, c1, c2, c3, c4, c5, rest, link, heq, hlink, hdurl, ?_, ?_⟩
          · cases h; exact hval
          · cases h; rfl

/-- Membership in the output of `parse_search_results` comes from some row of
the located table. -/
theorem mem_parse_search_results {html : String} {soup : Dom} {g : Grant}
    (h : g ∈ parse_search_results html soup) :
    ∃ t row, findTable soup = some t ∧ row ∈ rowsOf t ∧ processRow row = some g := by
  unfold parse_search_results at h
  split at h
  · exact absurd h (by simp)
  · unfold searchBody at h
    cases ht : findTable soup with
    | none => rw [ht] at h; exact absurd h (by simp [catchToEmptyList])
    | some t =>
      rw [ht] at h
      simp only [catchToEmptyList, rowsLoop_eq_filterMap] at h
      rcases List.mem_filterMap.mp h with ⟨row, hrow, hper⟩
      exact ⟨t, row, rfl, hrow, hper⟩

/-- `rowsLoop` splits around a row whose processing raises. -/
theorem rowsLoop_error_split (f : Node → Except String (Option Grant)) (bad : Node)
    (e : String) (hf : f bad = .error e) :
    ∀ pre post, rowsLoop f (pre ++ bad :: post) = rowsLoop f pre ++ rowsLoop f post := by
  intro pre
  induction pre with
  | nil => intro post; simp [rowsLoop, hf]
  | cons p pre ih =>
    intro post
    cases hp : f p with
    | error e2 => simp [rowsLoop, hp, ih]
    | ok o => cases o <;> simp [rowsLoop, hp, ih]

/-! ## Claim theorems -/

/-- C1: For every well-formed search-results document whose results table has
N data rows, each with at least 6 cells, a usa-link anchor in the first cell
with non-empty trimmed text and href, and a non-empty title cell (all
required fields present), `parse_search_results` returns exactly N records in
row order; and a row with fewer than 6 cells is excluded without affecting
adjacent rows: for the table with rows [valid, malformed(4 cells), valid] the
output has length 2 and consists of the two valid rows' records in order. -/
theorem C1_search_results_count :
    (∀ (html : String) (soup : Dom) (t : Node),
        html ≠ "" → findTable soup = some t →
        (∀ row ∈ rowsOf t, goodRow row = true) →
        parse_search_results html soup = (rowsOf t).filterMap processRow ∧
        (∀ row ∈ rowsOf t, (processRow row).isSome) ∧
        (parse_search_results html soup).length = (rowsOf t).length)
    ∧ ((rowCols badRow4).length = 4 ∧
        findTable exDoc = some exTable ∧
        rowsOf exTable = [mkRow "ABC-1" "/d/1" "T1" "A1" "Posted" "P1" "D1", badRow4,
          mkRow "ABC-3" "/d/3" "T3" "A3" "Posted" "P3" "D3"] ∧
        processRow (mkRow "ABC-1" "/d/1" "T1" "A1" "Posted" "P1" "D1") = some exGrant1 ∧
        processRow badRow4 = none ∧
        processRow (mkRow "ABC-3" "/d/3" "T3" "A3" "Posted" "P3" "D3") = some exGrant3 ∧
        parse_search_results "<html>" exDoc = [exGrant1, exGrant3]) := by
  constructor
  · intro html soup t hh ht hg
    have heq : parse_search_results html soup = (rowsOf t).filterMap processRow := by
      unfold parse_search_results searchBody
      rw [if_neg hh, ht]
      simp [catchToEmptyList, rowsLoop_eq_filterMap]
    have hsome : ∀ row ∈ rowsOf t, (processRow row).isSome :=
      fun row hr => processRow_isSome_of_goodRow row (hg row hr)
    exact ⟨heq, hsome, by rw [heq]; exact length_filterMap_all_some _ _ hsome⟩
  · exact ⟨by decide, by decide, by decide, by decide, by decide, by decide, by decide⟩

/-- C1 witness: the universally quantified part applied to a concrete
two-valid-row document. -/
theorem C1_search_results_count_witness :
    parse_search_results "x" wDoc = (rowsOf wTable).filterMap processRow ∧
    (∀ row ∈ rowsOf wTable, (processRow row).isSome) ∧
    (parse_search_results "x" wDoc).length = (rowsOf wTable).length :=
  C1_search_results_count.1 "x" wDoc wTable (by decide) (by decide) (by decide)

/-- C2: no exception escapes either top-level function: the per-row
`try/except` loop swallows a raising row and continues with the remaining
rows unchanged, and the top-level `try/except` of each function turns any
document-level error into the empty sentinel; both functions are exactly the
guarded bodies wrapped in those handlers (hence total). -/
theorem C2_exceptions_contained :
    (∀ (f : Node → Except String (Option Grant)) (pre post : List Node) (bad : Node)
        (e : String), f bad = .error e →
        rowsLoop f (pre ++ bad :: post) = rowsLoop f pre ++ rowsLoop f post)
    ∧ (∀ e : String, catchToEmptyList (.error e) = [] ∧ catchToEmptyDict (.error e) = [])
    ∧ (∀ (html : String) (soup : Dom),
        parse_search_results html soup =
          (if html = "" then [] else catchToEmptyList (searchBody soup)) ∧
        parse_grant_details html soup =
          (if html = "" then [] else catchToEmptyDict (detailsBody soup))) := by
  refine ⟨?_, fun e => ⟨rfl, rfl⟩, fun html soup => ⟨rfl, rfl⟩⟩
  intro f pre post bad e hf
  exact rowsLoop_error_split f bad e hf pre post

/-- C2 witness: a row body that raises on every row; the loop over the
one-row batch returns the empty concatenation instead of propagating. -/
theorem C2_exceptions_contained_witness :
    rowsLoop (fun _ => Except.error "boom") ([] ++ Node.text "row" :: []) =
      rowsLoop (fun _ => Except.error "boom") [] ++
        rowsLoop (fun _ => Except.error "boom") [] :=
  C2_exceptions_contained.1 (fun _ => Except.error "boom") [] [] (Node.text "row") "boom" rfl

/-- C3: every record returned by `parse_search_results` has non-empty
`title`, `opportunity_number` and `detail_page_url` (the `validate_grant_data`
gate holds of every output record), and a record dropped by the gate (or any
other skip) does not affect the other records of the batch. -/
theorem C3_required_fields_gate :
    (∀ (html : String) (soup : Dom) (g : Grant),
        g ∈ parse_search_results html soup →
        validate_grant_data g = true ∧
        (∃ t, g.title = some t ∧ t ≠ "") ∧
        g.opportunity_number ≠ "" ∧
        g.detail_page_url ≠ "")
    ∧ (∀ (pre post : List Node) (bad : Node),
        processRow bad = none →
        (pre ++ bad :: post).filterMap processRow =
          pre.filterMap processRow ++ post.filterMap processRow) := by
  constructor
  · intro html soup g hg
    rcases mem_parse_search_results hg with ⟨t, row, _, _, hper⟩
    rcases processRow_inv hper with ⟨_, _, _, _, _, _, _, _, _, _, _, hval, _⟩
    refine ⟨hval, ?_⟩
    simp only [validate_grant_data, Bool.and_eq_true, bne_iff_ne, ne_eq] at hval
    obtain ⟨⟨h1, h2⟩, h3⟩ := hval
    refine ⟨?_, h2, h3⟩
    cases ht : g.title with
    | none => rw [ht] at h1; exact absurd h1 (by simp)
    | some ti =>
      rw [ht] at h1
      exact ⟨ti, rfl, by simpa using h1⟩
  · intro pre post bad h
    simp [List.filterMap_append, List.filterMap_cons, h]

/-- C3 witness: the membership part applied to a concrete output record. -/
theorem C3_required_fields_gate_witness :
    validate_grant_data exGrant1 = true ∧
    (∃ t, exGrant1.title = some t ∧ t ≠ "") ∧
    exGrant1.opportunity_number ≠ "" ∧
    exGrant1.detail_page_url ≠ "" :=
  C3_required_fields_gate.1 "x" wDoc exGrant1 (by decide)

/-- C4: every output record's `detail_page_url` is bit-exactly the literal
"https://grants.gov" concatenated with the anchor's trimmed href, and a row
whose anchor has an empty trimmed href is skipped. -/
theorem C4_detail_url_bit_exact :
    (∀ (row : Node) (g : Grant), processRow row = some g →
        ∃ c0 link, (rowCols row).head? = some c0 ∧ findOppLink c0 = some link ∧
          pyStrip (hrefOf link) ≠ "" ∧
          g.detail_page_url = "https://grants.gov" ++ pyStrip (hrefOf link))
    ∧ (∀ (row c0 link : Node),
        (rowCols row).head? = some c0 → findOppLink c0 = some link →
        pyStrip (hrefOf link) = "" → processRow row = none) := by
  constructor
  · intro row g h
    rcases processRow_inv h with ⟨c0, c1, c2, c3, c4, c5, rest, link, heq, hlink, hdurl, _, hgeq⟩
    exact ⟨c0, link, by rw [heq]; rfl, hlink, hdurl, by rw [hgeq]⟩
  · intro row c0 link hhead hlink hempty
    unfold processRow
    split
    case h_2 => rfl
    case h_1 c0x c1 c2 c3 c4 c5 rest heq =>
      have hc : c0x = c0 := by
        rw [heq] at hhead
        simpa using hhead
      subst hc
      rw [hlink]
      simp [hempty]

/-- C4 witness: the characterisation applied to a concrete valid row. -/
theorem C4_detail_url_bit_exact_witness :
    ∃ c0 link,
      (rowCols (mkRow "ABC-1" "/d/1" "T1" "A1" "Posted" "P1" "D1")).head? = some c0 ∧
      findOppLink c0 = some link ∧
      pyStrip (hrefOf link) ≠ "" ∧
      exGrant1.detail_page_url = "https://grants.gov" ++ pyStrip (hrefOf link) :=
  C4_detail_url_bit_exact.1 (mkRow "ABC-1" "/d/1" "T1" "A1" "Posted" "P1" "D1") exGrant1 (by decide)

/-- C5: in the section-table extraction, a row with exactly two cells yields:
if the value cell contains hyperlinks, the structured pair of optional
trimmed text and the list of (stripped) non-empty hrefs; otherwise the
newline-join of the cell's stripped text fragments, an empty join yielding no
entry.  In particular a value cell with links `/a`, `/b` and visible text
"See links" yields the structured value with that text and those urls. -/
theorem C5_section_value_cells :
    (∀ (row kc vc : Node), rowCols row = [kc, vc] →
        (vc.findAll (Node.isTagNamed "a") = [] →
          rowEntry row =
            (if joinSep "\n" vc.strippedStrings = "" then none
             else some (pyRstripColon (pyStrip kc.getText),
               DVal.str (joinSep "\n" vc.strippedStrings)))) ∧
        (∀ l ls, vc.findAll (Node.isTagNamed "a") = l :: ls →
          rowEntry row = some (pyRstripColon (pyStrip kc.getText),
            DVal.linked (if pyStrip vc.getText = "" then none else some (pyStrip vc.getText))
              (linkUrls (l :: ls)))))
    ∧ rowEntry linkRow = some ("Contact", DVal.linked (some "See links") ["/a", "/b"])
    ∧ extract_table_data c5Doc "Additional Information" =
        [("Contact", DVal.linked (some "See links") ["/a", "/b"])] := by
  refine ⟨?_, by decide, by decide⟩
  intro row kc vc hcols
  constructor
  · intro hlinks
    unfold rowEntry
    rw [hcols]
    dsimp only
    rw [hlinks]
  · intro l ls hlinks
    unfold rowEntry
    rw [hcols]
    dsimp only
    rw [hlinks]

/-- C5 witness: the links branch applied to the concrete `linkRow`. -/
theorem C5_section_value_cells_witness :
    rowEntry linkRow = some (pyRstripColon (pyStrip kcEx.getText),
      DVal.linked (if pyStrip vcEx.getText = "" then none else some (pyStrip vcEx.getText))
        (linkUrls [anchorPlain "/a", anchorPlain "/b"])) :=
  (C5_section_value_cells.1 linkRow kcEx vcEx (by decide)).2
    (anchorPlain "/a") [anchorPlain "/b"] (by decide)

/-- C6: `clean_amount` keeps exactly the digits and decimal points of its
input, mapping an absent input or an empty cleaned result to `None`, without
rejecting multiple decimal points: `clean_amount "$1,234.56" = "1234.56"`,
`clean_amount "" = None`, `clean_amount None = None`,
`clean_amount "1.2.3" = "1.2.3"`. -/
theorem C6_clean_amount_strips :
    (∀ s : String, clean_amount (some s) =
        (if String.mk (s.data.filter (fun ch => ch.isDigit || ch == '.')) = "" then none
         else some (String.mk (s.data.filter (fun ch => ch.isDigit || ch == '.')))))
    ∧ clean_amount none = none
    ∧ clean_amount (some "$1,234.56") = some "1234.56"
    ∧ clean_amount (some "") = none
    ∧ clean_amount (some "1.2.3") = some "1.2.3" := by
  refine ⟨?_, rfl, by decide, by decide, by decide⟩
  intro s
  by_cases h : s = ""
  · subst h; rfl
  · simp [clean_amount, h]

/-- C8: the empty input string makes `parse_search_results` return the empty
sequence and `parse_grant_details` return the empty mapping, whatever the
parsed document would have been, without raising. -/
theorem C8_empty_input :
    ∀ soup : Dom, parse_search_results "" soup = [] ∧ parse_grant_details "" soup = [] := by
  intro soup
  exact ⟨rfl, rfl⟩

/-- Inserting a binding makes it the binding found for its key. -/
theorem lookupD_dictInsert_self (d : DDict) (k : String) (v : DVal) :
    lookupD (dictInsert d k v) k = some v := by
  induction d with
  | nil =>
    unfold dictInsert lookupD
    rw [List.find?_cons_of_pos _ (by simp)]
    rfl
  | cons p rest ih =>
    by_cases h : p.1 = k
    · unfold dictInsert
      rw [if_pos h]
      unfold lookupD
      rw [List.find?_cons_of_pos _ (by simp)]
      rfl
    · unfold dictInsert
      rw [if_neg h]
      unfold lookupD at ih ⊢
      rw [List.find?_cons_of_neg _ (by simp [h])]
      exact ih

/-- Inserting a binding leaves other keys' lookups unchanged. -/
theorem lookupD_dictInsert_ne (d : DDict) (k k2 : String) (v : DVal) (h : k ≠ k2) :
    lookupD (dictInsert d k v) k2 = lookupD d k2 := by
  induction d with
  | nil =>
    unfold dictInsert lookupD
    rw [List.find?_cons_of_neg _ (by simp [h])]
  | cons p rest ih =>
    by_cases hp : p.1 = k
    · unfold dictInsert
      rw [if_pos hp]
      unfold lookupD
      rw [List.find?_cons_of_neg _ (by simp [h]), List.find?_cons_of_neg _ (by simp [hp, h])]
    · unfold dictInsert
      rw [if_neg hp]
      unfold lookupD at ih ⊢
      by_cases hq : p.1 = k2
      · rw [List.find?_cons_of_pos _ (by simp [hq]), List.find?_cons_of_pos _ (by simp [hq])]
      · rw [List.find?_cons_of_neg _ (by simp [hq]), List.find?_cons_of_neg _ (by simp [hq])]
        exact ih

/-- Updating with a section none of whose keys is `k` leaves `k` unchanged. -/
theorem lookupD_dictUpdate_of_not_mem (s : DDict) (k : String)
    (h : ∀ p ∈ s, p.1 ≠ k) : ∀ d, lookupD (dictUpdate d s) k = lookupD d k := by
  induction s with
  | nil => intro d; rfl
  | cons p rest ih =>
    intro d
    have hp : p.1 ≠ k := h p (by simp)
    have hrest : ∀ q ∈ rest, q.1 ≠ k := fun q hq => h q (by simp [hq])
    show lookupD (dictUpdate (dictInsert d p.1 p.2) rest) k = lookupD d k
    rw [ih hrest]
    exact lookupD_dictInsert_ne d p.1 k p.2 hp

/-- Updating with a duplicate-free section makes its bindings win. -/
theorem lookupD_dictUpdate_of_lookup (s : DDict) :
    ∀ (d : DDict) (k : String) (v : DVal), (s.map Prod.fst).Nodup →
      lookupD s k = some v → lookupD (dictUpdate d s) k = some v := by
  induction s with
  | nil =>
    intro d k v _ h
    exact absurd h (by simp [lookupD])
  | cons p rest ih =>
    intro d k v hnd hl
    rw [List.map_cons, List.nodup_cons] at hnd
    obtain ⟨hnotin, hndrest⟩ := hnd
    by_cases hp : p.1 = k
    · have hv : v = p.2 := by
        unfold lookupD at hl
        rw [List.find?_cons_of_pos _ (by simp [hp])] at hl
        simpa using hl.symm
      subst hv
      have hnone : ∀ q ∈ rest, q.1 ≠ k := by
        intro q hq hqk
        exact hnotin (hp ▸ hqk ▸ List.mem_map_of_mem Prod.fst hq)
      show lookupD (dictUpdate (dictInsert d p.1 p.2) rest) k = some p.2
      rw [lookupD_dictUpdate_of_not_mem rest k hnone (dictInsert d p.1 p.2), hp]
      exact lookupD_dictInsert_self d k p.2
    · have hl2 : lookupD rest k = some v := by
        unfold lookupD at hl ⊢
        rwa [List.find?_cons_of_neg _ (by simp [hp])] at hl
      exact ih (dictInsert d p.1 p.2) k v hndrest hl2

/-- C9: `parse_grant_details` merges the three section mappings into its
result in the fixed order General Information → Eligibility → Additional
Information, so a key bound by a later section overwrites an earlier
binding; concretely, a key `X` bound in both the Eligibility and Additional
Information sections ends up with the Additional Information value. -/
theorem C9_section_merge_order :
    (∀ (html : String) (soup : Dom), html ≠ "" →
        parse_grant_details html soup =
          dictUpdate (dictUpdate (dictUpdate (synopsisPart soup)
            (extract_table_data soup "General Information"))
            (extract_table_data soup "Eligibility"))
            (extract_table_data soup "Additional Information"))
    ∧ (∀ (d s : DDict) (k : String) (v : DVal),
        (s.map Prod.fst).Nodup → lookupD s k = some v →
        lookupD (dictUpdate d s) k = some v)
    ∧ lookupD (extract_table_data c9Doc "Eligibility") "X" = some (.str "from-elig")
    ∧ lookupD (extract_table_data c9Doc "Additional Information") "X" = some (.str "from-add")
    ∧ lookupD (parse_grant_details "x" c9Doc) "X" = some (.str "from-add") := by
  refine ⟨?_, ?_, by decide, by decide, by decide⟩
  · intro html soup hh
    unfold parse_grant_details detailsBody
    rw [if_neg hh]
    rfl
  · intro d s k v hnd hl
    exact lookupD_dictUpdate_of_lookup s d k v hnd hl

/-- C9 witness: the fixed merge order at a concrete two-section document. -/
theorem C9_section_merge_order_witness :
    parse_grant_details "x" c9Doc =
      dictUpdate (dictUpdate (dictUpdate (synopsisPart c9Doc)
        (extract_table_data c9Doc "General Information"))
        (extract_table_data c9Doc "Eligibility"))
        (extract_table_data c9Doc "Additional Information") :=
  C9_section_merge_order.1 "x" c9Doc (by decide)

/-- C7 counterexample: a detail page where the synopsis heading's next
sibling block-level element is a `p` with text "AAA" while the next `div` in
document order carries "BBB": the code stores "BBB", not the next sibling
block-level element's text "AAA", as the synopsis. -/
theorem C7_synopsis_counterexample :
    parse_grant_details "x" c7Doc = [("synopsis", DVal.str "BBB")] ∧
    specSynopsisSibling c7Doc = some "AAA" ∧
    DVal.str "BBB" ≠ DVal.str "AAA" :=
  ⟨by decide, by decide, by decide⟩

/-- C7 amended: when the document contains an `h2` whose string is exactly
"Opportunity Synopsis", `parse_grant_details` takes the trimmed text of the
first `div` following the heading in document order (not necessarily a
sibling) as the "synopsis" field; whether or not this step finds anything,
the three section extractions still contribute to the result unchanged. -/
theorem C7_synopsis_amended :
    ∀ (html : String) (soup : Dom), html ≠ "" →
      parse_grant_details html soup =
        dictUpdate (dictUpdate (dictUpdate (synopsisPart soup)
          (extract_table_data soup "General Information"))
          (extract_table_data soup "Eligibility"))
          (extract_table_data soup "Additional Information") ∧
      (∀ d, synNextDiv soup = some d →
          synopsisPart soup = [("synopsis", DVal.str (pyStrip d.getText))]) ∧
      (synNextDiv soup = none → synopsisPart soup = []) := by
  intro html soup hh
  refine ⟨?_, ?_, ?_⟩
  · unfold parse_grant_details detailsBody
    rw [if_neg hh]
    rfl
  · intro d hd
    unfold synopsisPart
    rw [hd]
  · intro hd
    unfold synopsisPart
    rw [hd]

/-- C7 witness: the amended synopsis rule at the concrete document. -/
theorem C7_synopsis_amended_witness :
    parse_grant_details "x" c7Doc =
      dictUpdate (dictUpdate (dictUpdate (synopsisPart c7Doc)
        (extract_table_data c7Doc "General Information"))
        (extract_table_data c7Doc "Eligibility"))
        (extract_table_data c7Doc "Additional Information") ∧
    (∀ d, synNextDiv c7Doc = some d →
        synopsisPart c7Doc = [("synopsis", DVal.str (pyStrip d.getText))]) ∧
    (synNextDiv c7Doc = none → synopsisPart c7Doc = []) :=
  C7_synopsis_amended "x" c7Doc (by decide)

/-- C10: every output record has the seven base keys (by construction of
`Grant`); the optional keys eligibility / funding_instrument / category are
present exactly when the row's second cell contains a `grant-details` div,
and the award keys are present exactly when that div additionally contains
an `award-info` div. -/
theorem C10_optional_key_presence :
    ∀ (row : Node) (g : Grant), processRow row = some g →
      ∃ c1, (rowCols row)[1]? = some c1 ∧
        g.extra = extraOf c1 ∧
        (∀ k ∈ ["opportunity_number", "detail_page_url", "title", "agency", "status",
                "posted_date", "close_date"], k ∈ grantKeys g) ∧
        (("eligibility" ∈ grantKeys g ∧ "funding_instrument" ∈ grantKeys g ∧
            "category" ∈ grantKeys g) ↔ (findDetailsDiv c1).isSome) ∧
        (("award_ceiling" ∈ grantKeys g ∧ "award_floor" ∈ grantKeys g) ↔
          ∃ d, findDetailsDiv c1 = some d ∧ (findAwardInfo d).isSome) := by
  intro row g h
  rcases processRow_inv h with ⟨c0, c1, c2, c3, c4, c5, rest, link, heq, -, -, -, hgeq⟩
  have hx : g.extra = extraOf c1 := by rw [hgeq]
  refine ⟨c1, by rw [heq]; rfl, hx, ?_, ?_, ?_⟩
  · intro k hk
    simp only [grantKeys, List.mem_append]
    exact Or.inl hk
  · cases hd : findDetailsDiv c1 with
    | none => simp [grantKeys, hx, extraOf, hd]
    | some d =>
      cases ha : findAwardInfo d <;>
        simp [grantKeys, hx, extraOf, hd, ha]
  · cases hd : findDetailsDiv c1 with
    | none => simp [grantKeys, hx, extraOf, hd]
    | some d =>
      cases ha : findAwardInfo d <;>
        simp [grantKeys, hx, extraOf, hd, ha]

/-- C10 witness: the key-presence characterisation at a row carrying the
full optional block. -/
theorem C10_optional_key_presence_witness :
    ∃ c1, (rowCols richRow)[1]? = some c1 ∧
      richGrant.extra = extraOf c1 ∧
      (∀ k ∈ ["opportunity_number", "detail_page_url", "title", "agency", "status",
              "posted_date", "close_date"], k ∈ grantKeys richGrant) ∧
      (("eligibility" ∈ grantKeys richGrant ∧ "funding_instrument" ∈ grantKeys richGrant ∧
          "category" ∈ grantKeys richGrant) ↔ (findDetailsDiv c1).isSome) ∧
      (("award_ceiling" ∈ grantKeys richGrant ∧ "award_floor" ∈ grantKeys richGrant) ↔
        ∃ d, findDetailsDiv c1 = some d ∧ (findAwardInfo d).isSome) :=
  C10_optional_key_presence richRow richGrant (by decide)
